import Mathlib

/-!
Verification development for the oxi-pdf repository: a shallow embedding of
the DEFLATE decoder (`src/deflate/src/deflate.rs`), the 64-bit-buffer bit
reader (`src/deflate/src/bit_reader.rs`) and the PDF syntactic parser
(`src/pdf/src/parser.rs`), together with theorems settling the claims about
those components.

Modelling conventions.

* Machine integers are `Nat` with explicit truncation (`% 256`, `% 2 ^ 64`)
  exactly where the Rust code's fixed-width arithmetic discards bits.
* Rust byte buffers are `List Nat` whose elements are the byte values.
* Fallible computations land in a result type with an explicit constructor
  for abnormal termination: a Rust `panic!`, a failed `assert!`, an
  `Option::unwrap` on `None`, an out-of-bounds index, and an
  overflow-checked shift by the full bit width (the behaviour of the debug
  builds the repository's own test-suite runs under) are all modelled as
  the `panic` outcome.  A loop with no terminating execution is modelled as
  the `diverge` outcome, justified by a lemma quantifying over every fuel
  bound.
* `io::Error` values are modelled by `DeflateError`, keeping the
  `ErrorKind::UnexpectedEof` / `ErrorKind::Other (message)` distinction of
  the source.
-/

/-- Reversal of the low `w` bits of `x`: bit `i` of the input becomes bit
`w - 1 - i` of the output.  `revBits 8` is the `REVERSE_TABLE` lookup of
`deflate.rs` and `u8::reverse_bits`; `revBits 64` is `u64::reverse_bits`. -/
def revBits : Nat → Nat → Nat
  | 0, _ => 0
  | w + 1, x => (x % 2) * 2 ^ w + revBits w (x / 2)

/-- The error component of `io::Error` as used by the decoder. -/
inductive DeflateError where
  | unexpectedEof
  | other : String → DeflateError
deriving DecidableEq, Repr

/-- Outcome of an embedded computation: normal result, surfaced `io::Error`,
abnormal termination (`panic!`, failed `assert!`, unwrap of `None`,
out-of-bounds index, overflow-checked shift overflow), or non-termination. -/
inductive DRes (α : Type) where
  | ok : α → DRes α
  | err : DeflateError → DRes α
  | panic : DRes α
  | diverge : DRes α
deriving DecidableEq, Repr

namespace DRes

def bind {α β : Type} : DRes α → (α → DRes β) → DRes β
  | ok a, f => f a
  | err e, _ => err e
  | panic, _ => panic
  | diverge, _ => diverge

instance : Monad DRes where
  pure := ok
  bind := bind

end DRes

namespace Deflate

/-- The bit reader defined at the bottom of `deflate.rs` (the one
`rfc1951` consumes): a boxed byte source, one buffered byte, and the count
of still-unconsumed bits in it.  The byte source is modelled as the list of
bytes a `Cursor` would still deliver. -/
structure BitReader where
  input : List Nat
  buffer : Nat
  buffer_size : Nat
deriving DecidableEq, Repr

/-- `reverse_bits` of `deflate.rs` (the `REVERSE_TABLE` lookup). -/
def reverse_bits (x : Nat) : Nat := revBits 8 x

/-- `U8_BIT_MASK`. -/
def U8_BIT_MASK : Nat := 0b11111111

/-- `BitReader::read_from_single_byte`.  Reads up to 8 bits, most
significant first relative to the bit-reversed byte.  The `assert!(len <= 8)`
is a panic; reading from an exhausted source is the `read_exact` EOF. -/
def read_from_single_byte (st : BitReader) (len : Nat) :
    DRes (Nat × BitReader) :=
  if len > 8 then .panic
  else if len = 0 then .ok (0, st)
  else if st.buffer_size < len then
    match st.input with
    | [] => .err .unexpectedEof
    | b :: rest =>
      let new_byte := reverse_bits (b % 256)
      let extra_bits := len - st.buffer_size
      if extra_bits = 8 then
        .ok (new_byte, ⟨rest, 0, 8 - extra_bits⟩)
      else
        let out := (st.buffer * 2 ^ extra_bits) % 256 +
          (new_byte &&& (U8_BIT_MASK * 2 ^ (8 - extra_bits)) % 256) /
            2 ^ (8 - extra_bits)
        .ok (out, ⟨rest, new_byte &&& U8_BIT_MASK / 2 ^ extra_bits,
          8 - extra_bits⟩)
  else
    let mask := (U8_BIT_MASK / 2 ^ (8 - len)) * 2 ^ (st.buffer_size - len) % 256
    let out := (st.buffer &&& mask) / 2 ^ (st.buffer_size - len)
    .ok (out, ⟨st.input, st.buffer &&& (U8_BIT_MASK ^^^ mask),
      st.buffer_size - len⟩)

/-- The accumulation loop of `BitReader::read_from_byte`:
`to_read = min(8, len)` per pass, `buf = (buf << to_read) + chunk`, looping
while `len > 8` with `len -= 8` (the `len + 9` pattern is the `len > 8`
case, recursing at `len + 9 - 8 = len + 1`). -/
def read_from_byte_go : BitReader → Nat → Nat → DRes (Nat × BitReader)
  | st, len + 9, buf =>
    DRes.bind (read_from_single_byte st 8) fun (single_byte, st₁) =>
      read_from_byte_go st₁ (len + 1) ((buf * 2 ^ 8) % 2 ^ 64 + single_byte)
  | st, len, buf =>
    DRes.bind (read_from_single_byte st len) fun (single_byte, st₁) =>
      .ok ((buf * 2 ^ len) % 2 ^ 64 + single_byte, st₁)

/-- `BitReader::read_from_byte` of `deflate.rs`: `len` bits, first-read bit
most significant (the DEFLATE Huffman-code ordering). -/
def read_from_byte (st : BitReader) (len : Nat) : DRes (Nat × BitReader) :=
  if len > 64 then .panic else read_from_byte_go st len 0

/-- The accumulation loop of `BitReader::read_number`:
`to_read = min(8, len)` chunks, bit-reversed after a left adjustment and
accumulated LSB-first (the `len + 9` pattern is the `len > 8` case,
recursing at `len + 1`). -/
def read_number_go : BitReader → Nat → Nat → Nat → DRes (Nat × BitReader)
  | st, len + 9, buf, shift =>
    DRes.bind (read_from_single_byte st 8) fun (single_byte, st₁) =>
      read_number_go st₁ (len + 1)
        (buf + reverse_bits ((single_byte * 2 ^ 0) % 256) * 2 ^ shift)
        (shift + 8)
  | st, len, buf, shift =>
    DRes.bind (read_from_single_byte st len) fun (single_byte, st₁) =>
      .ok (buf + reverse_bits ((single_byte * 2 ^ (8 - len)) % 256) * 2 ^ shift,
        st₁)

/-- `BitReader::read_number` of `deflate.rs`: `len` bits in DEFLATE numeric
ordering (LSB-first within and across bytes). -/
def read_number (st : BitReader) (len : Nat) : DRes (Nat × BitReader) :=
  if len > 64 then .panic
  else if len = 0 then .ok (0, st)
  else read_number_go st len 0 0

/-- `BitReader::read_remaining_byte`. -/
def read_remaining_byte (st : BitReader) : DRes (Nat × BitReader) :=
  read_from_byte st st.buffer_size

/-- `Read::read_exact` through the `Read` impl of `BitReader`, which
delegates straight to the underlying byte source and bypasses the bit
buffer.  A source exhausted before `n` bytes yields
`ErrorKind::UnexpectedEof`. -/
def read_exact (st : BitReader) (n : Nat) : DRes (List Nat × BitReader) :=
  if st.input.length < n then .err .unexpectedEof
  else .ok (st.input.take n, ⟨st.input.drop n, st.buffer, st.buffer_size⟩)

/-- `EncodingType` of `deflate.rs`. -/
inductive EncodingType where
  | NoCompression
  | FixedHuffman
  | DynamicHuffman
deriving DecidableEq, Repr

/-- `EncodingType::from` (renamed: `from` is a Lean keyword).  Note the
source maps the code-ordered value `0b10` to `FixedHuffman` and `0b01` to
`DynamicHuffman`. -/
def EncodingType.from' (data : Nat) : Option EncodingType :=
  if data = 0b00 then some .NoCompression
  else if data = 0b10 then some .FixedHuffman
  else if data = 0b01 then some .DynamicHuffman
  else none

/-- `HuffmanCode` of `deflate.rs`.  The `HashMap<usize, Vec<i64>>` is
modelled as the association list of its non-`-1` entries (`(length, code)`
to symbol) plus the list of lengths present as keys. -/
structure HuffmanCode where
  table : List ((Nat × Nat) × Int)
  lengths : List Nat
  min_length : Nat
  max_length : Nat
deriving DecidableEq, Repr

/-- `coder.codes.contains_key(&length)`. -/
def HuffmanCode.containsLen (c : HuffmanCode) (len : Nat) : Bool :=
  c.lengths.contains len

/-- `coder.codes[&length][x]`: the vectors are initialised to `-1`, so an
absent entry reads `-1`.  (The source's vector for `length` has `2 ^ length`
slots and every probe keeps `x < 2 ^ length`, so no probe indexes out of
bounds.) -/
def HuffmanCode.lookup (c : HuffmanCode) (len x : Nat) : Int :=
  match c.table.find? (fun e => e.1 == (len, x)) with
  | some e => e.2
  | none => -1

/-- `generate_fixed_distance_code`: the 5-bit vector filled with
`code_5_bits[i] = i`. -/
def generate_fixed_distance_code : HuffmanCode :=
  ⟨(List.range 32).map (fun i => ((5, i), (i : Int))), [5], 5, 5⟩

/-- `generate_fixed_huffman`: the four fill loops of the source produce
exactly these entries — 8-bit codes `0x30..=0xBF` map to symbols `0..143`,
9-bit codes `0x190..=0x1FF` to `144..255`, 7-bit codes `0x00..=0x17` to
`256..279`, and 8-bit codes `0xC0..=0xC7` to `280..287` (the counter
`mapped` runs through the blocks in that order). -/
def generate_fixed_huffman : HuffmanCode :=
  ⟨((List.range 144).map fun i => (((8, 0x30 + i) : Nat × Nat), (i : Int))) ++
    ((List.range 112).map fun i =>
      (((9, 0x190 + i) : Nat × Nat), (144 + i : Int))) ++
    ((List.range 24).map fun i => (((7, i) : Nat × Nat), (256 + i : Int))) ++
    ((List.range 8).map fun i =>
      (((8, 0xC0 + i) : Nat × Nat), (280 + i : Int))),
    [7, 8, 9], 7, 9⟩

/-- Step 1 of `generate_codes`: `bl_count[len]` counts the symbols of
(nonzero) code length `len`. -/
def bl_count (cl : List Nat) (len : Nat) : Nat :=
  if len = 0 then 0 else cl.count len

/-- Step 1 of `generate_codes`: running minimum over nonzero lengths,
starting from `code_lengths.len()`. -/
def cl_min_length (cl : List Nat) : Nat :=
  cl.foldl (fun m x => if x < m ∧ x ≠ 0 then x else m) cl.length

/-- Step 1 of `generate_codes`: running maximum, starting from `0`. -/
def cl_max_length (cl : List Nat) : Nat :=
  cl.foldl (fun m x => if m < x then x else m) 0

/-- Step 2 of `generate_codes`: `next_code[0] = 0` and
`next_code[bits] = (next_code[bits-1] + bl_count[bits-1]) << 1`. -/
def next_code_start (cl : List Nat) : Nat → Nat
  | 0 => 0
  | bits + 1 => (next_code_start cl bits + bl_count cl bits) * 2

/-- Step 3 of `generate_codes`: walk the symbols in order, assigning
`next_code[len]` to each symbol of nonzero length `len` and incrementing
it.  Writing past the end of the `2 ^ len`-slot vector (an oversubscribed
code) is the source's index panic. -/
def generate_codes_assign : List Nat → Nat → (Nat → Nat) →
    DRes (List ((Nat × Nat) × Int))
  | [], _, _ => .ok []
  | len :: rest, n, next =>
    if len = 0 then generate_codes_assign rest (n + 1) next
    else if 2 ^ len ≤ next len then .panic
    else
      DRes.bind (generate_codes_assign rest (n + 1)
          (fun l => if l = len then next len + 1 else next l)) fun tbl =>
        .ok (((len, next len), (n : Int)) :: tbl)

/-- `generate_codes` of `deflate.rs` (RFC 1951 §3.2.2). -/
def generate_codes (cl : List Nat) : DRes HuffmanCode :=
  DRes.bind (generate_codes_assign cl 0 (next_code_start cl)) fun table =>
    .ok ⟨table, (cl.filter (fun x => x ≠ 0)).dedup,
      cl_min_length cl, cl_max_length cl⟩

/-- `CODE_LENGTH_ORDER`. -/
def CODE_LENGTH_ORDER : List Nat :=
  [16, 17, 18, 0, 8, 7, 9, 6, 10, 5, 11, 4, 12, 3, 13, 2, 14, 1, 15]

/-- The fill loop of `read_code_lengths`: one 3-bit number per entry of the
permutation prefix. -/
def read_code_lengths_go (st : BitReader) (order : List Nat)
    (result : Nat → Nat) : DRes ((Nat → Nat) × BitReader) :=
  match order with
  | [] => .ok (result, st)
  | idx :: rest =>
    DRes.bind (read_number st 3) fun (v, st₁) =>
      read_code_lengths_go st₁ rest (fun j => if j = idx then v else result j)

/-- `read_code_lengths` of `deflate.rs`.  `length = HCLEN + 4 ≤ 19`, so the
`CODE_LENGTH_ORDER[i]` accesses stay in bounds. -/
def read_code_lengths (st : BitReader) (length : Nat) :
    DRes (List Nat × BitReader) :=
  if length > 19 then .panic
  else
    DRes.bind (read_code_lengths_go st (CODE_LENGTH_ORDER.take length)
        (fun _ => 0)) fun (r, st₁) =>
      .ok ((List.range 19).map r, st₁)

/-- Writes `v` to `result[i], …, result[i+count-1]`; the source's
sequential `result[i] = v; i += 1` writes panic at the first out-of-bounds
index, i.e. exactly when `i + count` exceeds the vector length. -/
def set_range (result : List Nat) (i count v : Nat) : DRes (List Nat) :=
  if i + count ≤ result.length then
    .ok (result.take i ++ List.replicate count v ++ result.drop (i + count))
  else .panic

/-- The main loop of `next_code_impl`: probe the current `x` at width
`length`, else shift in one more bit, until `max_length` is passed (then
`panic!()`).  The fuel is `max_length + 1 - length`, so fuel `0` is exactly
the `while` guard failing. -/
def next_code_go (coder : HuffmanCode) :
    Nat → Nat → Nat → BitReader → DRes (Nat × BitReader)
  | 0, _, _, _ => .panic
  | fuel + 1, x, length, st =>
    if coder.containsLen length ∧ coder.lookup length x ≠ -1 then
      .ok ((coder.lookup length x).toNat, st)
    else
      DRes.bind (read_from_byte st 1) fun (bit, st₁) =>
        next_code_go coder fuel (x * 2 + bit) (length + 1) st₁

/-- `HuffmanAdapter::next_code_impl`. -/
def next_code_impl (coder : HuffmanCode) (st : BitReader) :
    DRes (Nat × BitReader) :=
  DRes.bind (read_from_byte st coder.min_length) fun (x, st₁) =>
    next_code_go coder (coder.max_length + 1 - coder.min_length) x
      coder.min_length st₁

/-- `HuffmanAdapter::next_distance`. -/
def next_distance (dist : Option HuffmanCode) (st : BitReader) :
    DRes (Nat × BitReader) :=
  match dist with
  | none => .err (.other "This Adapter does not have a distance coder.")
  | some coder => next_code_impl coder st

/-- The length-code table of `HuffmanAdapter::read_distance`
(RFC 1951 §3.2.5): code to (extra bits, base length). -/
def length_extra (code : Nat) : Option (Nat × Nat) :=
  match code with
  | 257 => some (0, 3) | 258 => some (0, 4) | 259 => some (0, 5)
  | 260 => some (0, 6) | 261 => some (0, 7) | 262 => some (0, 8)
  | 263 => some (0, 9) | 264 => some (0, 10) | 265 => some (1, 11)
  | 266 => some (1, 13) | 267 => some (1, 15) | 268 => some (1, 17)
  | 269 => some (2, 19) | 270 => some (2, 23) | 271 => some (2, 27)
  | 272 => some (2, 31) | 273 => some (3, 35) | 274 => some (3, 43)
  | 275 => some (3, 51) | 276 => some (3, 59) | 277 => some (4, 67)
  | 278 => some (4, 83) | 279 => some (4, 99) | 280 => some (4, 115)
  | 281 => some (5, 131) | 282 => some (5, 163) | 283 => some (5, 195)
  | 284 => some (5, 227) | 285 => some (0, 258)
  | _ => none

/-- The distance-code table of `HuffmanAdapter::read_distance`
(RFC 1951 §3.2.5): code to (extra bits, base distance). -/
def distance_extra (code : Nat) : Option (Nat × Nat) :=
  match code with
  | 0 => some (0, 1) | 1 => some (0, 2) | 2 => some (0, 3)
  | 3 => some (0, 4) | 4 => some (1, 5) | 5 => some (1, 7)
  | 6 => some (2, 9) | 7 => some (2, 13) | 8 => some (3, 17)
  | 9 => some (3, 25) | 10 => some (4, 33) | 11 => some (4, 49)
  | 12 => some (5, 65) | 13 => some (5, 97) | 14 => some (6, 129)
  | 15 => some (6, 193) | 16 => some (7, 257) | 17 => some (7, 385)
  | 18 => some (8, 513) | 19 => some (8, 769) | 20 => some (9, 1025)
  | 21 => some (9, 1537) | 22 => some (10, 2049) | 23 => some (10, 3073)
  | 24 => some (11, 4097) | 25 => some (11, 6145) | 26 => some (12, 8193)
  | 27 => some (12, 12289) | 28 => some (13, 16385) | 29 => some (13, 24577)
  | _ => none

/-- `HuffmanAdapter::read_distance`: decode the (length, distance) pair for
a literal/length symbol `code > 256`. -/
def read_distance (dist : Option HuffmanCode) (st : BitReader) (code : Nat) :
    DRes ((Nat × Nat) × BitReader) :=
  match length_extra code with
  | none => .err (.other "Unexpected code length.")
  | some (extra_bits, partial_length) =>
    DRes.bind (read_number st extra_bits) fun (e, st₁) =>
    DRes.bind (next_distance dist st₁) fun (distance_code, st₂) =>
    match distance_extra distance_code with
    | none => .err (.other "Unexpected distance length.")
    | some (extra_bits_distance, base_distance) =>
      DRes.bind (read_number st₂ extra_bits_distance) fun (d, st₃) =>
        .ok ((partial_length + e, base_distance + d), st₃)

/-- The `while length > 0` append loop of the back-reference copy in
`read_huffman`: each iteration appends the whole `copy` vector and lowers
the remaining `length` by `copy.len()` (saturating at `0`).  `none` means
the fuel ran out; with an empty `copy` that happens at every fuel, which is
how the model witnesses the loop's non-termination. -/
def append_copy_go : Nat → List Nat → List Nat → Nat → Option (List Nat)
  | _, out, _, 0 => some out
  | 0, _, _, _ => none
  | fuel + 1, out, copy, length + 1 =>
    append_copy_go fuel (out ++ copy) copy
      (if copy.length < length + 1 then length + 1 - copy.length else 0)

/-- The `copy` slice of the back-reference step in `read_huffman`:
`start = out.len() - distance`, then `out[start..out.len()]` when
`start + length` overruns the output, else `out[start..start+length]`. -/
def backref_slice (out : List Nat) (length distance : Nat) : List Nat :=
  let start := out.length - distance
  if out.length < start + length then out.drop start
  else (out.drop start).take length

/-- The back-reference copy step of `read_huffman` (deflate.rs:485-503):
`let start = out.len() - distance` panics (usize underflow) when
`distance > out.len()`; then the append loop runs on `backref_slice`.
A fuel of `length + 1` always suffices when the slice is nonempty (each
pass lowers `length` by at least one), so `none` — reported as `diverge` —
occurs exactly when the slice is empty (that is, `distance = 0`) and
`length > 0`, where the source loop runs forever. -/
def copy_expansion (out : List Nat) (length distance : Nat) :
    DRes (List Nat) :=
  if out.length < distance then .panic
  else
    match append_copy_go (length + 1) out (backref_slice out length distance)
        length with
    | some res => .ok res
    | none => .diverge

/-- The decode loop of `read_huffman`: literals below 256 are emitted,
256 ends the block, larger symbols trigger a back-reference.  Every
iteration consumes at least one bit (all coders in use have
`min_length ≥ 1`), so the fuel supplied by the callers
(more than the number of available bits) is never exhausted; fuel `0` is
therefore an unreachable `diverge`. -/
def read_huffman_go (coder : HuffmanCode) (dist : Option HuffmanCode) :
    Nat → BitReader → List Nat → DRes (List Nat × BitReader)
  | 0, _, _ => .diverge
  | fuel + 1, st, out =>
    match next_code_impl coder st with
    | .ok (x, st₁) =>
      if x < 256 then read_huffman_go coder dist fuel st₁ (out ++ [x])
      else if x = 256 then .ok (out, st₁)
      else
        DRes.bind (read_distance dist st₁ x) fun ((length, distance), st₂) =>
        DRes.bind (copy_expansion out length distance) fun out₁ =>
          read_huffman_go coder dist fuel st₂ out₁
    | .err e => .err e
    | .panic => .panic
    | .diverge => .diverge

/-- `read_huffman` of `deflate.rs`, appending to `out`. -/
def read_huffman (coder : HuffmanCode) (dist : Option HuffmanCode)
    (st : BitReader) (out : List Nat) : DRes (List Nat × BitReader) :=
  read_huffman_go coder dist (8 * st.input.length + 16) st out

/-- The loop of `read_compressed_code_lengths` (RFC 1951 §3.2.7), expanding
codes 0-15 directly and the run-length codes 16/17/18.  `i` grows by at
least one per iteration, so fuel `length + 1` is never exhausted; fuel `0`
is an unreachable `diverge`. -/
def read_compressed_code_lengths_go (coder : HuffmanCode) :
    Nat → Nat → Nat → List Nat → BitReader → DRes (List Nat × BitReader)
  | 0, _, _, _, _ => .diverge
  | fuel + 1, i, prev_code, result, st =>
    if result.length ≤ i then .ok (result, st)
    else
      match next_code_impl coder st with
      | .ok (code, st₁) =>
        if code ≤ 15 then
          DRes.bind (set_range result i 1 code) fun result₁ =>
            read_compressed_code_lengths_go coder fuel (i + 1) code result₁ st₁
        else if code = 16 then
          DRes.bind (read_number st₁ 2) fun (n, st₂) =>
          DRes.bind (set_range result i (n + 3) prev_code) fun result₁ =>
            read_compressed_code_lengths_go coder fuel (i + (n + 3)) prev_code
              result₁ st₂
        else if code = 17 then
          DRes.bind (read_number st₁ 3) fun (n, st₂) =>
          DRes.bind (set_range result i (n + 3) 0) fun result₁ =>
            read_compressed_code_lengths_go coder fuel (i + (n + 3)) prev_code
              result₁ st₂
        else if code = 18 then
          DRes.bind (read_number st₁ 7) fun (n, st₂) =>
          DRes.bind (set_range result i (n + 11) 0) fun result₁ =>
            read_compressed_code_lengths_go coder fuel (i + (n + 11)) prev_code
              result₁ st₂
        else .panic
      | .err e => .err e
      | .panic => .panic
      | .diverge => .diverge

/-- `read_compressed_code_lengths` of `deflate.rs`. -/
def read_compressed_code_lengths (coder : HuffmanCode) (st : BitReader)
    (length : Nat) : DRes (List Nat × BitReader) :=
  read_compressed_code_lengths_go coder (length + 1) 0 0
    (List.replicate length 0) st

/-- `read_huffman_code` of `deflate.rs` (RFC 1951 §3.2.7): the dynamic
block header. -/
def read_huffman_code (st : BitReader) :
    DRes ((HuffmanCode × HuffmanCode) × BitReader) :=
  DRes.bind (read_number st 5) fun (h₁, st₁) =>
  DRes.bind (read_number st₁ 5) fun (h₂, st₂) =>
  DRes.bind (read_number st₂ 4) fun (h₃, st₃) =>
  let hlit := h₁ + 257
  let hdist := h₂ + 1
  let hclen := h₃ + 4
  DRes.bind (read_code_lengths st₃ hclen) fun (code_lengths, st₄) =>
  DRes.bind (generate_codes code_lengths) fun codes =>
  DRes.bind (read_compressed_code_lengths codes st₄ hlit)
    fun (literal_code_lengths, st₅) =>
  DRes.bind (generate_codes literal_code_lengths) fun literal_codes =>
  DRes.bind (read_compressed_code_lengths codes st₅ hdist)
    fun (distance_code_lengths, st₆) =>
  DRes.bind (generate_codes distance_code_lengths) fun distance_codes =>
  .ok ((literal_codes, distance_codes), st₆)

/-- `read_no_compression` of `deflate.rs`: align to a byte, read `LEN` and
`NLEN`, panic when they mismatch, and copy `LEN` raw bytes. -/
def read_no_compression (st : BitReader) : DRes (List Nat × BitReader) :=
  DRes.bind (read_remaining_byte st) fun (_, st₁) =>
  DRes.bind (read_number st₁ 16) fun (len, st₂) =>
  DRes.bind (read_number st₂ 16) fun (nlen, st₃) =>
  if len % 65536 ≠ 65535 - nlen % 65536 then .panic
  else read_exact st₃ (len % 65536)

/-- The block loop of `rfc1951`.  `EncodingType::from(btype).unwrap()`
panics on `None`.  Every iteration consumes at least the three header bits,
so the fuel supplied by `rfc1951` (more than the number of available bits)
is never exhausted; fuel `0` is an unreachable `diverge`. -/
def rfc1951_go : Nat → BitReader → List Nat → DRes (List Nat × BitReader)
  | 0, _, _ => .diverge
  | fuel + 1, st, decoded =>
    DRes.bind (read_from_byte st 1) fun (bfinal, st₁) =>
    DRes.bind (read_from_byte st₁ 2) fun (btype, st₂) =>
    match EncodingType.from' btype with
    | none => .panic
    | some EncodingType.NoCompression =>
      DRes.bind (read_no_compression st₂) fun (d, st₃) =>
        if bfinal > 0 then .ok (decoded ++ d, st₃)
        else rfc1951_go fuel st₃ (decoded ++ d)
    | some EncodingType.FixedHuffman =>
      DRes.bind (read_huffman generate_fixed_huffman
          (some generate_fixed_distance_code) st₂ decoded) fun (d, st₃) =>
        if bfinal > 0 then .ok (d, st₃) else rfc1951_go fuel st₃ d
    | some EncodingType.DynamicHuffman =>
      DRes.bind (read_huffman_code st₂) fun ((lit, dist), st₃) =>
      DRes.bind (read_huffman lit (some dist) st₃ decoded) fun (d, st₄) =>
        if bfinal > 0 then .ok (d, st₄) else rfc1951_go fuel st₄ d

/-- The block loop of `rfc1951` run from a fresh reader over `data`:
everything `rfc1951` does before its trailing 4-byte `read_exact`. -/
def rfc1951_blocks (data : List Nat) : DRes (List Nat × BitReader) :=
  rfc1951_go (3 * data.length + 8) ⟨data, 0, 0⟩ []

/-- `rfc1951` of `deflate.rs`: the block loop followed by the unconditional
4-byte `read_exact` (the zlib Adler-32 trailer, read even for a raw
stream). -/
def rfc1951 (data : List Nat) : DRes (List Nat) :=
  DRes.bind (rfc1951_blocks data) fun (decoded, st) =>
  DRes.bind (read_exact st 4) fun _ =>
  .ok decoded

end Deflate

namespace PdfParser

/-- `Res` of `parser.rs`: `Found(data, remaining)`, `NotFound`, `Error`;
plus the `panic` outcome for abnormal termination (out-of-bounds indexing
and arithmetic overflow in the recognizers). -/
inductive PRes (α : Type) where
  | found : α → List Nat → PRes α
  | notFound
  | error
  | panic
deriving DecidableEq, Repr

/-- The byte sequence of an ASCII string literal (Rust strings are kept as
their UTF-8 bytes throughout the embedding). -/
def strBytes (s : String) : List Nat := s.data.map Char.toNat

/-- A UTF-8 continuation byte. -/
def utf8_cont (b : Nat) : Bool := decide (0x80 ≤ b ∧ b ≤ 0xBF)

/-- Validity in the sense of `String::from_utf8` (well-formed UTF-8, no
surrogates, no overlong forms, maximum U+10FFFF). -/
def utf8_valid : List Nat → Bool
  | [] => true
  | b :: rest =>
    if b ≤ 0x7F then utf8_valid rest
    else if 0xC2 ≤ b ∧ b ≤ 0xDF then
      match rest with
      | c :: r => utf8_cont c && utf8_valid r
      | _ => false
    else if b = 0xE0 then
      match rest with
      | c :: d :: r => decide (0xA0 ≤ c ∧ c ≤ 0xBF) && utf8_cont d &&
          utf8_valid r
      | _ => false
    else if (0xE1 ≤ b ∧ b ≤ 0xEC) ∨ b = 0xEE ∨ b = 0xEF then
      match rest with
      | c :: d :: r => utf8_cont c && utf8_cont d && utf8_valid r
      | _ => false
    else if b = 0xED then
      match rest with
      | c :: d :: r => decide (0x80 ≤ c ∧ c ≤ 0x9F) && utf8_cont d &&
          utf8_valid r
      | _ => false
    else if b = 0xF0 then
      match rest with
      | c :: d :: e :: r => decide (0x90 ≤ c ∧ c ≤ 0xBF) && utf8_cont d &&
          utf8_cont e && utf8_valid r
      | _ => false
    else if 0xF1 ≤ b ∧ b ≤ 0xF3 then
      match rest with
      | c :: d :: e :: r => utf8_cont c && utf8_cont d && utf8_cont e &&
          utf8_valid r
      | _ => false
    else if b = 0xF4 then
      match rest with
      | c :: d :: e :: r => decide (0x80 ≤ c ∧ c ≤ 0x8F) && utf8_cont d &&
          utf8_cont e && utf8_valid r
      | _ => false
    else false

/-- `Res::string`: `String::from_utf8(data)` with the
`"ERROR: Unparsable string."` fallback on invalid UTF-8. -/
def res_string (data : List Nat) : List Nat :=
  if utf8_valid data then data else strBytes "ERROR: Unparsable string."

/-- Decimal value of a digit-only byte list; `none` on any non-digit. -/
def dec_digits (s : List Nat) : Option Nat :=
  s.foldl (fun acc b =>
    match acc with
    | none => none
    | some v => if 0x30 ≤ b ∧ b ≤ 0x39 then some (v * 10 + (b - 0x30))
                else none) (some 0)

/-- `i64::from_str`: optional sign, at least one digit, nothing else, and
the value must fit in `i64`. -/
def i64_from_str (s : List Nat) : Option Int :=
  let core := fun (neg : Bool) (digits : List Nat) =>
    if digits = [] then none
    else
      match dec_digits digits with
      | none => none
      | some v =>
        if neg then (if (v : Int) ≤ 2 ^ 63 then some (-(v : Int)) else none)
        else (if (v : Int) < 2 ^ 63 then some ((v : Int)) else none)
  match s with
  | 0x2B :: rest => core false rest
  | 0x2D :: rest => core true rest
  | _ => core false s

/-- `u64::from_str`: optional `+`, at least one digit, value below
`2 ^ 64`. -/
def u64_from_str (s : List Nat) : Option Nat :=
  let core := fun (digits : List Nat) =>
    if digits = [] then none
    else
      match dec_digits digits with
      | none => none
      | some v => if v < 2 ^ 64 then some v else none
  match s with
  | 0x2B :: rest => core rest
  | _ => core s

/-- Whether `f64::from_str` succeeds, restricted to the bytes the numeric
recognizers pass through (digits, `+`, `-`, `.`): an optional sign followed
by `digits [. digits*]` or `. digits+`.  (No range failure exists for
`f64`.) -/
def f64_from_str_ok (s : List Nat) : Bool :=
  let isDigit := fun b => decide (0x30 ≤ b ∧ b ≤ 0x39)
  let mantissa := fun (t : List Nat) =>
    let intPart := t.takeWhile isDigit
    match t.dropWhile isDigit with
    | [] => !intPart.isEmpty
    | 0x2E :: frac => (!intPart.isEmpty || !frac.isEmpty) && frac.all isDigit
    | _ => false
  match s with
  | 0x2B :: rest => mantissa rest
  | 0x2D :: rest => mantissa rest
  | _ => mantissa s

/-- `is_whitespace` (§7.2.2): NUL, HT, LF, FF, CR, SP. -/
def is_whitespace (b : Nat) : Bool :=
  b = 0x00 || b = 0x09 || b = 0x0A || b = 0x0C || b = 0x0D || b = 0x20

/-- `is_whitespace_ascii` (used by hex strings): SP, HT, CR, LF, FF. -/
def is_whitespace_ascii (b : Nat) : Bool :=
  b = 0x20 || b = 0x09 || b = 0x0D || b = 0x0A || b = 0x0C

/-- `is_numeric_ascii`: a digit or a sign. -/
def is_numeric_ascii (b : Nat) : Bool :=
  decide (0x30 ≤ b ∧ b ≤ 0x39) || b = 0x2B || b = 0x2D

/-- `is_float_ascii`: `is_numeric_ascii` or `.`. -/
def is_float_ascii (b : Nat) : Bool := is_numeric_ascii b || b = 0x2E

/-- `is_octal_digit`. -/
def is_octal_digit (b : Nat) : Bool := decide (0x30 ≤ b ∧ b ≤ 0x37)

/-- `is_hex_ascii`. -/
def is_hex_ascii (b : Nat) : Bool :=
  decide (0x30 ≤ b ∧ b ≤ 0x39) || decide (0x41 ≤ b ∧ b ≤ 0x46) ||
    decide (0x61 ≤ b ∧ b ≤ 0x66)

/-- `uppercase_hex`. -/
def uppercase_hex (b : Nat) : Nat :=
  if 0x61 ≤ b ∧ b ≤ 0x66 then b - 0x20 else b

/-- `ascii_to_hex`.  The source's `_ => unreachable!()` arm panics; every
call site first checks `is_hex_ascii`, so the arm is never taken and the
model returns `0` there. -/
def ascii_to_hex (b : Nat) : Nat :=
  if 0x30 ≤ b ∧ b ≤ 0x39 then b - 0x30
  else if 0x41 ≤ b ∧ b ≤ 0x46 then b - 0x41 + 0xA
  else 0

/-- `exact`: match a literal byte string. -/
def exact (data expected : List Nat) : PRes Unit :=
  if data.length < expected.length then .notFound
  else if data.take expected.length = expected then
    .found () (data.drop expected.length)
  else .notFound

/-- `eol` (§7.2.2 in the parser): LF, or CR LF; a bare CR is not an EOL. -/
def eol (data : List Nat) : PRes Unit :=
  match data with
  | [] => .notFound
  | b :: rest =>
    if b = 0x0A then .found () rest
    else if b = 0x0D then
      match rest with
      | 0x0A :: rest₂ => .found () rest₂
      | _ => .notFound
    else .notFound

/-- The scan loop of `until_eol`. -/
def until_eol_go (acc : List Nat) : List Nat → PRes (List Nat)
  | [] => .found acc []
  | b :: rest =>
    match eol (b :: rest) with
    | .found _ rem => .found acc rem
    | _ => until_eol_go (acc ++ [b]) rest

/-- `until_eol`: the bytes before the next EOL (or to the end of the
buffer). -/
def until_eol (data : List Nat) : PRes (List Nat) := until_eol_go [] data

/-- `comment` (§7.2.3): `%` up to EOL. -/
def comment (data : List Nat) : PRes (List Nat) :=
  match data with
  | 0x25 :: rest =>
    match until_eol rest with
    | .found c rem => .found c rem
    | _ => .notFound
  | _ => .notFound

/-- The loop of `consume_whitespace`, fuelled: each pass consumes at least
one byte, so the fuel of `consume_whitespace` is never exhausted. -/
def consume_whitespace_go : Nat → List Nat → List Nat
  | 0, data => data
  | fuel + 1, data =>
    match data with
    | [] => []
    | b :: rest =>
      if is_whitespace b then consume_whitespace_go fuel rest
      else
        match comment (b :: rest) with
        | .found _ rem => consume_whitespace_go fuel rem
        | _ => b :: rest

/-- `consume_whitespace`: drop whitespace and comments. -/
def consume_whitespace (data : List Nat) : List Nat :=
  consume_whitespace_go (data.length + 1) data

/-- `boolean` (§7.3.2). -/
def boolean (data : List Nat) : PRes Bool :=
  match exact data (strBytes "true") with
  | .found _ rem => .found true rem
  | _ =>
    match exact data (strBytes "false") with
    | .found _ rem => .found false rem
    | _ => .notFound

/-- `integer` (§7.3.3): take the maximal prefix of float characters and
parse it with `i64::from_str` (through `Res::i64` and `Res::string`). -/
def integer (data : List Nat) : PRes Int :=
  match data with
  | [] => .notFound
  | b :: _ =>
    if ¬ is_float_ascii b then .notFound
    else
      match i64_from_str (res_string (data.takeWhile is_float_ascii)) with
      | some v => .found v (data.dropWhile is_float_ascii)
      | none => .notFound

/-- `nonnegative_integer`: `block!(integer)` plus a sign check. -/
def nonnegative_integer (data : List Nat) : PRes Nat :=
  match integer data with
  | .found v rest => if v < 0 then .notFound else .found v.toNat rest
  | .panic => .panic
  | _ => .notFound

/-- `float` (§7.3.3).  The model carries the matched token rather than an
`f64` value (floating point is not modelled); `Found` versus `NotFound` is
decided by `f64::from_str` success exactly as in the source. -/
def float (data : List Nat) : PRes (List Nat) :=
  match data with
  | [] => .notFound
  | b :: _ =>
    if ¬ is_float_ascii b then .notFound
    else
      if f64_from_str_ok (res_string (data.takeWhile is_float_ascii)) then
        .found (data.takeWhile is_float_ascii) (data.dropWhile is_float_ascii)
      else .notFound

/-- `octal_char`: up to three octal digits, zero-padded on the left.  The
source computes the value in `u8` arithmetic, which overflows (panics) for
escapes above `\377`. -/
def octal_char (data : List Nat) : PRes Nat :=
  let ds := (data.take 3).takeWhile is_octal_digit
  if ds.length = 0 then .notFound
  else
    let v := ds.foldl (fun a b => a * 8 + (b - 0x30)) 0
    if 255 < v then .panic
    else .found v (data.drop ds.length)

/-- `string_escape` (§7.3.4.2). -/
def string_escape (data : List Nat) : PRes Nat :=
  match data with
  | b0 :: b1 :: rest =>
    if b0 ≠ 0x5C then .notFound
    else
      match octal_char (b1 :: rest) with
      | .found v rem => .found v rem
      | .panic => .panic
      | _ =>
        match eol (b1 :: rest) with
        | .found _ rem => .found 0x20 rem
        | _ =>
          let result :=
            if b1 = 0x6E then 0x0A else if b1 = 0x72 then 0x0D
            else if b1 = 0x74 then 0x09 else if b1 = 0x62 then 0x08
            else if b1 = 0x66 then 0x0C else if b1 = 0x28 then 0x28
            else if b1 = 0x29 then 0x29 else if b1 = 0x5C then 0x5C
            else b1
          .found result rest
  | _ => .notFound

/-- The scan loop of `literal_string`: escapes first, then parenthesis
balancing; the closing parenthesis of balance 1 is consumed but not
emitted.  Every pass consumes at least one byte, so the fuel supplied by
`literal_string` is never exhausted. -/
def literal_string_go : Nat → Nat → List Nat → List Nat → PRes (List Nat)
  | 0, _, _, _ => .panic
  | fuel + 1, balance, acc, data =>
    match data with
    | [] => if balance ≠ 0 then .error else .found acc []
    | _ =>
      match string_escape data with
      | .found c rem => literal_string_go fuel balance (acc ++ [c]) rem
      | .panic => .panic
      | _ =>
        match data with
        | c :: rest =>
          if c = 0x29 then
            (if balance - 1 = 0 then .found acc rest
             else literal_string_go fuel (balance - 1) (acc ++ [c]) rest)
          else if c = 0x28 then
            literal_string_go fuel (balance + 1) (acc ++ [c]) rest
          else literal_string_go fuel balance (acc ++ [c]) rest
        | [] => .error

/-- `literal_string` (§7.3.4.2): `(`, balanced content, `)`; unbalanced
input is `Error`. -/
def literal_string (data : List Nat) : PRes (List Nat) :=
  match data with
  | 0x28 :: rest => literal_string_go (rest.length + 1) 1 [] rest
  | _ => .notFound

/-- The scan loop of `hex_string`
(`while data.len() == 0 || data[0] != '>'`): when the slice is empty the
guard is still true and the body reads `data[0]` out of bounds — a panic.
The `>` is left unconsumed for the `ascii!` that follows the loop. -/
def hex_string_go (acc : List Nat) : List Nat → PRes (List Nat)
  | [] => .panic
  | b :: rest =>
    if b = 0x3E then .found acc (b :: rest)
    else if is_whitespace_ascii b then hex_string_go acc rest
    else if is_hex_ascii b then hex_string_go (acc ++ [uppercase_hex b]) rest
    else .error

/-- `ascii_array_to_hex`: one or two hex characters to a byte (a single
trailing digit is the high nibble). -/
def ascii_array_to_hex (data : List Nat) : PRes Nat :=
  if ¬ (data.take 2).all is_hex_ascii then .notFound
  else
    match data with
    | a :: b :: rest =>
      .found (ascii_to_hex (uppercase_hex a) * 0x10 +
        ascii_to_hex (uppercase_hex b)) rest
    | [a] => .found (ascii_to_hex (uppercase_hex a) * 0x10) []
    | [] => .notFound

/-- The pairing loop at the end of `hex_string`; consumes one or two hex
characters per pass, so the fuel supplied by `hex_string` is never
exhausted. -/
def hex_pairs : Nat → List Nat → List Nat → List Nat
  | 0, acc, _ => acc
  | fuel + 1, acc, hex =>
    match ascii_array_to_hex hex with
    | .found v rem => hex_pairs fuel (acc ++ [v]) rem
    | _ => acc

/-- `hex_string` (§7.3.4.3).  The leading `ascii!` guard is an `if` as in
the macro's expansion (`data.len() == 0 || data[0] != '<'` is
`NotFound`). -/
def hex_string (data : List Nat) : PRes (List Nat) :=
  match data with
  | [] => .notFound
  | b :: rest =>
    if b = 0x3C then
      match hex_string_go [] rest with
      | .found result rem =>
        match rem with
        | 0x3E :: rem₂ => .found (hex_pairs (result.length + 1) [] result) rem₂
        | _ => .notFound
      | .notFound => .notFound
      | .error => .error
      | .panic => .panic
    else .notFound

/-- `string` (§7.3.4): a hex string if one is `Found`, otherwise a literal
string (an `Error` from `hex_string` also falls through, as in the
source). -/
def string (data : List Nat) : PRes (List Nat) :=
  match hex_string data with
  | .found v rem => .found v rem
  | .panic => .panic
  | _ => literal_string data

/-- `identifier_escape`: `#` followed by two hex characters. -/
def identifier_escape (data : List Nat) : PRes Nat :=
  match data with
  | 0x23 :: rest =>
    if rest.length < 2 then .error
    else ascii_array_to_hex rest
  | _ => .notFound

/-- A regular name character: `!`..`~` except `/ ( ) [ ] < >` — except
that the source does not exclude `)` (only `(` is listed). -/
def is_identifier_char (b : Nat) : Bool :=
  decide (0x21 ≤ b ∧ b ≤ 0x7E) && b ≠ 0x2F && b ≠ 0x28 && b ≠ 0x5D &&
    b ≠ 0x5B && b ≠ 0x3C && b ≠ 0x3E

/-- The scan loop of `identifier`; `#NN` escapes are taken when they parse,
otherwise the raw byte (including a lone `#`) is kept.  Every pass consumes
at least one byte. -/
def identifier_go : Nat → List Nat → List Nat → PRes (List Nat)
  | 0, _, _ => .panic
  | fuel + 1, acc, data =>
    match data with
    | [] => .found acc []
    | b :: rest =>
      if ¬ is_identifier_char b then .found acc (b :: rest)
      else
        match identifier_escape (b :: rest) with
        | .found e rem => identifier_go fuel (acc ++ [e]) rem
        | _ => identifier_go fuel (acc ++ [b]) rest

/-- `identifier` (§7.3.5): `/` then name characters, through
`Res::string`. -/
def identifier (data : List Nat) : PRes (List Nat) :=
  match data with
  | 0x2F :: rest =>
    match identifier_go (rest.length + 1) [] rest with
    | .found raw rem => .found (res_string raw) rem
    | .notFound => .notFound
    | .error => .error
    | .panic => .panic
  | _ => .notFound

/-- `Key` of `parser.rs`: object and generation number. -/
structure Key where
  object : Nat
  generation : Nat
deriving DecidableEq, Repr

/-- `PdfObject` of `parser.rs`.  Rust strings are byte lists; `Float`
carries the matched token instead of an `f64`; `Dictionary` is the
association list of a `HashMap`; `Stream` keeps the payload bytes and the
metadata dictionary (its derived `length`/`filters` fields are computed
from the dictionary and are not needed by any claim). -/
inductive PdfObject where
  | Array : List PdfObject → PdfObject
  | Boolean : Bool → PdfObject
  | Reference : Key → PdfObject
  | Dictionary : List (List Nat × PdfObject) → PdfObject
  | Float : List Nat → PdfObject
  | Identifier : List Nat → PdfObject
  | Integer : Int → PdfObject
  | Stream : List Nat → List (List Nat × PdfObject) → PdfObject
  | Null : PdfObject
  | String : List Nat → PdfObject
deriving Repr

/-- `reference_header`: two whitespace-separated integers with
`object ≥ 1` and `generation ≥ 0` (the `block!` macro turns an `Error`
from a sub-production into `NotFound`). -/
def reference_header (data : List Nat) : PRes Key :=
  match integer data with
  | .found object rest =>
    match integer (consume_whitespace rest) with
    | .found generation rest₂ =>
      if object < 1 ∨ generation < 0 then .notFound
      else .found ⟨object.toNat, generation.toNat⟩ rest₂
    | .panic => .panic
    | _ => .notFound
  | .panic => .panic
  | _ => .notFound

/-- `reference` (§7.3.10): `N G R`. -/
def reference (data : List Nat) : PRes Key :=
  match reference_header data with
  | .found key rest =>
    match consume_whitespace rest with
    | 0x52 :: rest₂ => .found key rest₂
    | _ => .notFound
  | .panic => .panic
  | _ => .notFound

/-- `null` (§7.3.9). -/
def null (data : List Nat) : PRes Unit := exact data (strBytes "null")

/-- `HashMap::insert` on an association list: replace in place or
append. -/
def dict_insert (m : List (List Nat × PdfObject)) (k : List Nat)
    (v : PdfObject) : List (List Nat × PdfObject) :=
  match m with
  | [] => [(k, v)]
  | (k₀, v₀) :: rest =>
    if k₀ = k then (k, v) :: rest else (k₀, v₀) :: dict_insert rest k v

/-- The `ascii!('>'); ascii!('>')` epilogue of `dictionary`. -/
def dict_close (acc : List (List Nat × PdfObject)) (data : List Nat) :
    PRes (List (List Nat × PdfObject)) :=
  match data with
  | 0x3E :: 0x3E :: rem => .found acc rem
  | _ => .notFound

mutual

/-- `object` of `parser.rs`: the strict alternation
boolean, null, reference, integer, float, string, identifier, array,
dictionary — the first `Found` wins, anything else falls through (a panic
from a sub-production propagates).  The fuel only bounds the
`object`/`array`/`dictionary` recursion depth; `objectP` supplies more
fuel than any input can consume. -/
def objectF : Nat → List Nat → PRes PdfObject
  | 0, _ => .panic
  | fuel + 1, data =>
    match boolean data with
    | .found b rem => .found (.Boolean b) rem
    | _ =>
    match null data with
    | .found _ rem => .found .Null rem
    | _ =>
    match reference data with
    | .found k rem => .found (.Reference k) rem
    | .panic => .panic
    | _ =>
    match integer data with
    | .found v rem => .found (.Integer v) rem
    | .panic => .panic
    | _ =>
    match float data with
    | .found t rem => .found (.Float t) rem
    | .panic => .panic
    | _ =>
    match string data with
    | .found s rem => .found (.String s) rem
    | .panic => .panic
    | _ =>
    match identifier data with
    | .found s rem => .found (.Identifier s) rem
    | .panic => .panic
    | _ =>
    match arrayF fuel data with
    | .found a rem => .found (.Array a) rem
    | .panic => .panic
    | _ =>
    match dictionaryF fuel data with
    | .found d rem => .found (.Dictionary d) rem
    | .panic => .panic
    | _ => .notFound

/-- `array` (§7.3.6): `[`, whitespace-separated objects, `]`. -/
def arrayF : Nat → List Nat → PRes (List PdfObject)
  | 0, _ => .panic
  | fuel + 1, data =>
    match data with
    | 0x5B :: rest => array_loopF fuel (consume_whitespace rest) []
    | _ => .notFound

/-- The element loop of `array`: objects while they parse, then a final
`consume_whitespace` and the closing `]`. -/
def array_loopF : Nat → List Nat → List PdfObject → PRes (List PdfObject)
  | 0, _, _ => .panic
  | fuel + 1, data, acc =>
    match objectF fuel data with
    | .found o rem => array_loopF fuel (consume_whitespace rem) (acc ++ [o])
    | .panic => .panic
    | _ =>
      match consume_whitespace data with
      | 0x5D :: rem => .found acc rem
      | _ => .notFound

/-- `dictionary` (§7.3.7): `<<`, (identifier, object) pairs, `>>`. -/
def dictionaryF : Nat → List Nat → PRes (List (List Nat × PdfObject))
  | 0, _ => .panic
  | fuel + 1, data =>
    match data with
    | 0x3C :: 0x3C :: rest => dict_loopF fuel (consume_whitespace rest) []
    | _ => .notFound

/-- The entry loop of `dictionary`: while input remains, a key
(`repeat!` — a non-`Found` key exits the loop) and a value
(`block!` — a non-`Found` value is `NotFound` for the whole
production). -/
def dict_loopF : Nat → List Nat → List (List Nat × PdfObject) →
    PRes (List (List Nat × PdfObject))
  | 0, _, _ => .panic
  | fuel + 1, data, acc =>
    if data.length = 0 then dict_close acc data
    else
      match identifier data with
      | .found key rem =>
        match objectF fuel (consume_whitespace rem) with
        | .found v rem₂ =>
          dict_loopF fuel (consume_whitespace rem₂) (dict_insert acc key v)
        | .panic => .panic
        | _ => .notFound
      | .panic => .panic
      | _ => dict_close acc data

end

/-- `object` run with enough fuel for any input (each nesting level of the
grammar consumes input, so `4 * length + 4` recursion steps always
suffice). -/
def objectP (data : List Nat) : PRes PdfObject :=
  objectF (4 * data.length + 4) data

/-- `XrefType`. -/
inductive XrefType where
  | Free
  | InUse
  | Compressed
deriving DecidableEq, Repr

/-- `XrefEntry`. -/
structure XrefEntry where
  offset : Nat
  generation_number : Nat
  type_ : XrefType
deriving DecidableEq, Repr

/-- `Xref`. -/
structure Xref where
  offset : Nat
  type_ : XrefType
  key : Key
deriving DecidableEq, Repr

/-- `Xref::from` (renamed: `from` is a Lean keyword): an entry placed at
its object number. -/
def Xref.from' (entry : XrefEntry) (object_number : Nat) : Xref :=
  ⟨entry.offset, entry.type_, ⟨object_number, entry.generation_number⟩⟩

/-- `fixed_integer`: exactly `length` bytes through `String::from_utf8`
and `u64::from_str`. -/
def fixed_integer (data : List Nat) (length : Nat) : PRes Nat :=
  if data.length < length then .notFound
  else
    match (if utf8_valid (data.take length) then
        u64_from_str (data.take length) else none) with
    | some v => .found v (data.drop length)
    | none => .notFound

/-- `xref_entry` (§7.5.4): a 20-byte entry
`oooooooooo ggggg {n|f}` followed by whitespace consumption (the source
notes it should consume exactly two bytes).  The type-character read
`data[0]` is guarded by the 20-byte length check, so the `panic` arm is
unreachable. -/
def xref_entry (data : List Nat) : PRes XrefEntry :=
  if data.length < 20 then .notFound
  else
    match fixed_integer data 10 with
    | .found offset rest =>
      match rest with
      | 0x20 :: rest₁ =>
        match fixed_integer rest₁ 5 with
        | .found generation rest₂ =>
          match rest₂ with
          | 0x20 :: rest₃ =>
            match rest₃ with
            | b :: rest₄ =>
              if b = 0x6E then
                .found ⟨offset, generation, .InUse⟩ (consume_whitespace rest₄)
              else if b = 0x66 then
                .found ⟨offset, generation, .Free⟩ (consume_whitespace rest₄)
              else .notFound
            | [] => .panic
          | _ => .notFound
        | _ => .notFound
      | _ => .notFound
    | _ => .notFound

/-- `HashMap::insert` on a `u64`-keyed association list. -/
def xref_insert (m : List (Nat × Xref)) (k : Nat) (v : Xref) :
    List (Nat × Xref) :=
  match m with
  | [] => [(k, v)]
  | (k₀, v₀) :: rest =>
    if k₀ = k then (k, v) :: rest else (k₀, v₀) :: xref_insert rest k v

/-- The `for i in 0..entries` loop of `xref_table`: `count` remaining
entries, object numbers `object_number + i`. -/
def xref_entries_go (object_number : Nat) :
    Nat → Nat → List Nat → List (Nat × Xref) → PRes (List (Nat × Xref))
  | _, 0, data, table => .found table data
  | i, count + 1, data, table =>
    match xref_entry data with
    | .found e rest =>
      let x := Xref.from' e (object_number + i)
      xref_entries_go object_number (i + 1) count rest
        (xref_insert table x.key.object x)
    | .panic => .panic
    | _ => .notFound

/-- The subsection loop of `xref_table`: a `first_obj count` header
(`repeat!` on the first integer — a non-`Found` exits the loop and yields
the table) followed by `count` entries.  Every pass consumes input, so the
fuel supplied by `xref_table` is never exhausted. -/
def xref_table_go : Nat → List Nat → List (Nat × Xref) →
    PRes (List (Nat × Xref))
  | 0, _, _ => .panic
  | fuel + 1, data, table =>
    match nonnegative_integer data with
    | .found object_number rest =>
      match nonnegative_integer (consume_whitespace rest) with
      | .found entries rest₂ =>
        match xref_entries_go object_number 0 entries
            (consume_whitespace rest₂) table with
        | .found table₂ rest₃ => xref_table_go fuel rest₃ table₂
        | .panic => .panic
        | _ => .notFound
      | .panic => .panic
      | _ => .notFound
    | .panic => .panic
    | _ => .found table data

/-- `xref_table` (§7.5.4): the keyword `xref` followed by subsections. -/
def xref_table (data : List Nat) : PRes (List (Nat × Xref)) :=
  match exact data (strBytes "xref") with
  | .found _ rest =>
    xref_table_go (data.length + 1) (consume_whitespace rest) []
  | _ => .notFound

/-- `Version` of `parser.rs`. -/
inductive Version where
  | V1 | V1_1 | V1_2 | V1_3 | V1_4 | V1_5 | V1_6 | V1_7 | V1_8
  | Newer : List Nat → Version
deriving DecidableEq, Repr

/-- `Pdf` of `parser.rs`: the version and the map from object number to
materialised object. -/
structure Pdf where
  version : Version
  objects : List (Nat × PdfObject)

/-- `HashMap::get` on the object map. -/
def objects_get (m : List (Nat × PdfObject)) (k : Nat) : Option PdfObject :=
  (m.find? (fun e => e.1 == k)).map (fun e => e.2)

/-- `Pdf::resolve`: `self.objects.get(&key.object).unwrap_or(&Null)` — the
lookup uses only the object number of the key. -/
def Pdf.resolve (pdf : Pdf) (key : Key) : PdfObject :=
  match objects_get pdf.objects key.object with
  | some o => o
  | none => PdfObject.Null

end PdfParser

namespace BitReader64

/-- The newer bit reader of `bit_reader.rs`: a 64-bit word buffer holding
`buffer_size` not-yet-consumed bits, over a byte source modelled as the
list of bytes a `Cursor` would still deliver. -/
structure BitReader where
  input : List Nat
  buffer : Nat
  buffer_size : Nat
deriving DecidableEq, Repr

/-- `U64_BIT_MASK`. -/
def U64_BIT_MASK : Nat := 0xFFFFFFFFFFFFFFFF

/-- `u64::from_le_bytes` of the 8-byte refill buffer; a partial read
leaves the unwritten tail zero, which the zero-padding of the list model
reproduces. -/
def from_le_bytes : List Nat → Nat
  | [] => 0
  | b :: rest => b % 256 + 256 * from_le_bytes rest

/-- `BitReader::read_bits` of `bit_reader.rs`.  When the buffer holds fewer
than `len` bits the old buffer is set aside (`result`, `start`), up to 8
fresh bytes are pulled in little-endian order, and `len` is lowered by the
old `buffer_size`; then the requested bits are cut out, shifted to the top
of the word and bit-reversed.  `U64_BIT_MASK >> 64 - len` is an
overflow-checked shift by the full width when `len = 0` — a panic (only
reachable without a refill, since a refill leaves `len ≥ 1`); the
`piece + result` addition is checked `u64` arithmetic. -/
def read_bits (st : BitReader) (len : Nat) : DRes (Nat × BitReader) :=
  if len > 64 then .panic
  else
    let refill := st.buffer_size < len
    let result := if refill then st.buffer else 0
    let start := if refill then st.buffer_size else 0
    let k := min 8 st.input.length
    let buffer := if refill then from_le_bytes (st.input.take k) else st.buffer
    let input := if refill then st.input.drop k else st.input
    let len₁ := if refill then len - st.buffer_size else len
    let buffer_size := if refill then k * 8 else st.buffer_size
    if buffer_size < len₁ then .err .unexpectedEof
    else if len₁ = 0 then .panic
    else
      let piece := ((buffer &&& (U64_BIT_MASK / 2 ^ (64 - len₁))) * 2 ^ start)
        % 2 ^ 64
      if 2 ^ 64 ≤ piece + result then .panic
      else
        let result₁ :=
          revBits 64 (((piece + result) * 2 ^ (64 - len₁ - start)) % 2 ^ 64)
        .ok (result₁, ⟨input, buffer / 2 ^ len₁, buffer_size - len₁⟩)

/-- The accumulation loop of `BitReader::read_number` in `bit_reader.rs`:
`to_read = min(8, len)` chunks through `read_bits`, each truncated to `u8`,
bit-reversed after a left adjustment, and accumulated LSB-first (the
`len + 9` pattern is the `len > 8` case, recursing at `len + 1`). -/
def read_number_go : BitReader → Nat → Nat → Nat → DRes (Nat × BitReader)
  | st, len + 9, buf, shift =>
    DRes.bind (read_bits st 8) fun (v, st₁) =>
      read_number_go st₁ (len + 1)
        (buf + revBits 8 ((v % 256 * 2 ^ 0) % 256) * 2 ^ shift) (shift + 8)
  | st, len, buf, shift =>
    DRes.bind (read_bits st len) fun (v, st₁) =>
      .ok (buf + revBits 8 ((v % 256 * 2 ^ (8 - len)) % 256) * 2 ^ shift, st₁)

/-- `BitReader::read_number` of `bit_reader.rs`: `len` bits in DEFLATE
numeric ordering. -/
def read_number (st : BitReader) (len : Nat) : DRes (Nat × BitReader) :=
  if len > 64 then .panic
  else if len = 0 then .ok (0, st)
  else read_number_go st len 0 0

end BitReader64

/-- The 11-byte fixed-Huffman stream of the repository's own unit test
`test_fixed_huffman_decode` (deflate.rs:732-742). -/
def testing_input : List Nat :=
  [0x0B, 0x49, 0x2D, 0x2E, 0xC9, 0xCC, 0x4B, 0x0F, 0x81, 0x50, 0x00]

/-- The ASCII bytes of `TestingTesting`. -/
def testing_testing : List Nat :=
  [84, 101, 115, 116, 105, 110, 103, 84, 101, 115, 116, 105, 110, 103]

/-- The ASCII cross-reference table with subsections `0 1`, `3 1`, `23 2`
and `30 1` (the second table of the repository's `test_xref_table`). -/
def xref_claim_input : List Nat :=
  PdfParser.strBytes
    ("xref\n" ++
     "0 1\n" ++
     "0000000000 65535 f\r\n" ++
     "3 1\n" ++
     "0000025325 00000 n\r\n" ++
     "23 2\n" ++
     "0000025518 00002 n\r\n" ++
     "0000025635 00000 n\r\n" ++
     "30 1\n" ++
     "0000025777 00000 n\r\n")

theorem revBits_lt (w : Nat) : ∀ x, revBits w x < 2 ^ w := by
  induction w with
  | zero => intro x; simp [revBits]
  | succ w ih =>
    intro x
    have h1 := ih (x / 2)
    have h2 : x % 2 ≤ 1 := by omega
    have h3 : x % 2 * 2 ^ w ≤ 2 ^ w := by
      calc x % 2 * 2 ^ w ≤ 1 * 2 ^ w := Nat.mul_le_mul_right _ h2
        _ = 2 ^ w := by ring
    simp only [revBits, pow_succ]
    omega

theorem revBits_mul_pow (k : Nat) : ∀ w x, revBits (w + k) (x * 2 ^ k) = revBits w x := by
  induction k with
  | zero => intro w x; simp
  | succ k ih =>
    intro w x
    have h1 : x * 2 ^ (k + 1) = x * 2 ^ k * 2 := by ring
    have h2 : w + (k + 1) = (w + k) + 1 := by omega
    rw [h2, h1]
    simp only [revBits, Nat.mul_mod_left, Nat.mul_div_cancel _ (by norm_num : 0 < 2)]
    simpa using ih w x

theorem append_copy_go_spec (copy : List Nat) (hc : copy ≠ []) :
    ∀ fuel length out, length ≤ fuel →
      Deflate.append_copy_go fuel out copy length =
        some (out ++
          (List.replicate ((length + copy.length - 1) / copy.length)
            copy).flatten) := by
  have hcpos : 0 < copy.length := List.length_pos.mpr hc
  have h0 : (copy.length - 1) / copy.length = 0 :=
    Nat.div_eq_of_lt (by omega)
  intro fuel
  induction fuel with
  | zero =>
    intro length out hle
    have hz : length = 0 := by omega
    subst hz
    simp [Deflate.append_copy_go, h0]
  | succ f ih =>
    intro length out hle
    match length with
    | 0 => simp [Deflate.append_copy_go, h0]
    | l + 1 =>
      have hstep : Deflate.append_copy_go (f + 1) out copy (l + 1) =
          Deflate.append_copy_go f (out ++ copy) copy
            (if copy.length < l + 1 then l + 1 - copy.length else 0) := by
        simp [Deflate.append_copy_go]
      have hL : (if copy.length < l + 1 then l + 1 - copy.length else 0) ≤ f := by
        split <;> omega
      have key : (l + 1 + copy.length - 1) / copy.length =
          ((if copy.length < l + 1 then l + 1 - copy.length else 0) +
            copy.length - 1) / copy.length + 1 := by
        by_cases hlt : copy.length < l + 1
        · rw [if_pos hlt,
            (by omega : l + 1 + copy.length - 1 = l + copy.length),
            (by omega : l + 1 - copy.length + copy.length - 1 = l),
            Nat.add_div_right _ hcpos]
        · rw [if_neg hlt,
            (by omega : l + 1 + copy.length - 1 = l + copy.length),
            Nat.add_div_right _ hcpos,
            Nat.div_eq_of_lt (by omega : l < copy.length),
            Nat.div_eq_of_lt (by omega : 0 + copy.length - 1 < copy.length)]
      rw [hstep, ih _ _ hL, key, List.replicate_succ, List.flatten_cons,
        List.append_assoc]

theorem backref_slice_length (out : List Nat) (length distance : Nat)
    (h₂ : distance ≤ out.length) :
    (Deflate.backref_slice out length distance).length =
      min distance length := by
  unfold Deflate.backref_slice
  by_cases h : out.length < out.length - distance + length
  · simp only [h, if_true, List.length_drop]
    omega
  · simp only [h, if_false, List.length_take, List.length_drop]
    omega

theorem append_copy_go_empty (length : Nat) (h : 1 ≤ length) :
    ∀ (fuel : Nat) (out : List Nat),
      Deflate.append_copy_go fuel out [] length = none := by
  obtain ⟨l, rfl⟩ : ∃ l, length = l + 1 := ⟨length - 1, by omega⟩
  intro fuel
  induction fuel with
  | zero => intro out; simp [Deflate.append_copy_go]
  | succ f ih =>
    intro out
    have hstep : Deflate.append_copy_go (f + 1) out [] (l + 1) =
        Deflate.append_copy_go f (out ++ []) [] (l + 1) := by
      simp [Deflate.append_copy_go]
    rw [hstep, ih]

/-- C1 (the concrete fixed-Huffman scenario): the block loop of `rfc1951`
does decode the 11-byte stream to the 14 ASCII bytes `TestingTesting`
(consuming 87 of the 88 input bits), but `rfc1951` itself then
unconditionally `read_exact`s a 4-byte (Adler-32) trailer from the
exhausted source and therefore returns `ErrorKind::UnexpectedEof` instead
of succeeding — the behaviour the claim (and the repository's own test
`test_fixed_huffman_decode`) asserts. -/
theorem rfc1951_testing_trailer_eof :
    Deflate.rfc1951 testing_input = .err .unexpectedEof ∧
    Deflate.rfc1951_blocks testing_input =
      .ok (testing_testing, ⟨[], 0, 1⟩) := by
  constructor
  · decide
  · decide

/-- C2 counterexample: a back-reference with `distance = 2` and
`length = 3` into the output `[1, 2]` appends four bytes (`[1, 2]` twice),
not three — the append loop emits whole copies of the slice, so the result
has length 6, not `2 + 3`. -/
theorem copy_expansion_overshoot_cex :
    Deflate.copy_expansion [1, 2] 3 2 = .ok [1, 2, 1, 2, 1, 2] ∧
    ¬ ([1, 2, 1, 2, 1, 2] : List Nat).length = 2 + 3 := by
  constructor
  · decide
  · decide

/-- C2 (amended): for `1 ≤ distance ≤ |out|` and `length ≥ 1` the
back-reference copy appends the slice
`out[start .. min(|out|, start+length)]` (which has
`min(distance, length)` bytes) as a whole
`⌈length / min(distance, length)⌉` times — exactly `length` bytes when the
slice length divides `length` (in particular `distance = 1` emits `length`
copies of the previous byte), and more than `length` bytes otherwise. -/
theorem copy_expansion_whole_copies (out : List Nat) (length distance : Nat)
    (h₁ : 1 ≤ distance) (h₂ : distance ≤ out.length) (h₃ : 1 ≤ length) :
    Deflate.copy_expansion out length distance =
      .ok (out ++
        (List.replicate
          ((length + min distance length - 1) / min distance length)
          (Deflate.backref_slice out length distance)).flatten) := by
  have hlen := backref_slice_length out length distance h₂
  have hne : Deflate.backref_slice out length distance ≠ [] := by
    intro hnil
    rw [hnil] at hlen
    simp at hlen
    omega
  unfold Deflate.copy_expansion
  rw [if_neg (by omega : ¬ out.length < distance),
    append_copy_go_spec _ hne (length + 1) length out (by omega), hlen]

/-- C2 witness: out `[7, 9]`, `length = 3`, `distance = 1` appends three
copies of the one-byte slice `[9]`. -/
theorem copy_expansion_whole_copies_witness :
    Deflate.copy_expansion [7, 9] 3 1 = .ok [7, 9, 9, 9, 9] := by
  have h := copy_expansion_whole_copies [7, 9] 3 1 (by decide) (by decide)
    (by decide)
  simpa using h

/-- C3 counterexample: a back-reference whose distance (3) exceeds the
output length (1) makes the copy step panic (the `usize` subtraction
`out.len() - distance` underflows) — an abnormal termination, not a
surfaced `BadDistance` error (no such error kind exists anywhere in the
decoder). -/
theorem copy_expansion_bad_distance_cex :
    Deflate.copy_expansion [5] 2 3 = .panic := by decide

/-- C3 (amended): a distance exceeding `|out|` makes the back-reference
copy panic instead of failing with a surfaced error, and a distance of `0`
with positive `length` makes the copy loop run forever (the copy slice is
empty, so the remaining `length` never decreases): the model reports
`diverge`, and the append loop indeed fails to terminate at every fuel
bound. -/
theorem copy_expansion_out_of_range (out : List Nat) (length distance : Nat) :
    (out.length < distance →
      Deflate.copy_expansion out length distance = .panic) ∧
    (distance = 0 → 1 ≤ length →
      Deflate.copy_expansion out length distance = .diverge ∧
      ∀ fuel, Deflate.append_copy_go fuel out
        (Deflate.backref_slice out length distance) length = none) := by
  constructor
  · intro h
    unfold Deflate.copy_expansion
    rw [if_pos h]
  · rintro rfl h
    have hsl : Deflate.backref_slice out length 0 = [] := by
      unfold Deflate.backref_slice
      rw [if_pos (by omega : out.length < out.length - 0 + length)]
      simp
    refine ⟨?_, ?_⟩
    · unfold Deflate.copy_expansion
      rw [if_neg (by omega : ¬ out.length < 0), hsl,
        append_copy_go_empty length h]
    · intro fuel
      rw [hsl]
      exact append_copy_go_empty length h fuel out

/-- C3 witness: distance 7 into a 1-byte output panics; distance 0 with
length 1 diverges. -/
theorem copy_expansion_out_of_range_witness :
    Deflate.copy_expansion [5] 2 7 = .panic ∧
    Deflate.copy_expansion [9] 1 0 = .diverge :=
  ⟨(copy_expansion_out_of_range [5] 2 7).1 (by decide),
   ((copy_expansion_out_of_range [9] 1 0).2 rfl (by decide)).1⟩

set_option maxRecDepth 20000 in
/-- C4: the `object` alternation tries `reference` before `integer`, so
`1 0 R` parses as the reference `(1, 0)` with empty remainder while `1 0`
(no `R`) parses as the integer `1` with remainder `" 0"`. -/
theorem object_reference_before_integer :
    PdfParser.objectP (PdfParser.strBytes "1 0 R") =
      .found (.Reference ⟨1, 0⟩) [] ∧
    PdfParser.objectP (PdfParser.strBytes "1 0") =
      .found (.Integer 1) (PdfParser.strBytes " 0") := by
  constructor
  · rfl
  · rfl

set_option maxRecDepth 100000 in
/-- C5: the ASCII xref table with subsection headers `0 1`, `3 1`, `23 2`
and `30 1` produces a map whose key set is exactly 0, 3, 23, 24, 30 (the
i-th entry of a subsection starting at N lands at object N + i), each key
carrying the offset and generation of its 20-byte entry. -/
theorem xref_table_subsections :
    PdfParser.xref_table xref_claim_input =
      .found [(0, ⟨0, .Free, ⟨0, 65535⟩⟩),
              (3, ⟨25325, .InUse, ⟨3, 0⟩⟩),
              (23, ⟨25518, .InUse, ⟨23, 2⟩⟩),
              (24, ⟨25635, .InUse, ⟨24, 0⟩⟩),
              (30, ⟨25777, .InUse, ⟨30, 0⟩⟩)] [] := by
  decide

/-- C6 counterexample: the byte `0x07` carries `BFINAL = 1` and a `BTYPE`
field whose numeric value is `11`; decoding it panics
(`EncodingType::from` returns `None` and the `.unwrap()` in the block loop
aborts) instead of failing with an `InvalidBlock` error — no such error
kind exists in the decoder. -/
theorem rfc1951_btype_three_cex : Deflate.rfc1951 [0x07] = .panic := by
  decide

set_option maxRecDepth 100000 in
/-- C6 (amended): a `BTYPE` of numeric value `00` is processed as a stored
block (input `0x01 ...`: an empty stored block plus the 4-byte trailer
read), `01` as a fixed-Huffman block (input `0x03 ...`: end-of-block only),
and `10` as a dynamic-Huffman block (the 16-byte input: a minimal dynamic
header and an immediate end-of-block); the 2-bit field is read in
bit-reversed code order, which the swapped `EncodingType::from` table
(`0b10` to fixed, `0b01` to dynamic) compensates for exactly.  Numeric
`11` reads as `0b11`, `EncodingType::from` yields `None`, and the
`.unwrap()` panics — decoding aborts abnormally rather than surfacing an
`InvalidBlock` error. -/
theorem rfc1951_btype_dispatch :
    (Deflate.EncodingType.from' 0 = some .NoCompression ∧
     Deflate.EncodingType.from' 2 = some .FixedHuffman ∧
     Deflate.EncodingType.from' 1 = some .DynamicHuffman ∧
     Deflate.EncodingType.from' 3 = none) ∧
    Deflate.rfc1951 [0x01, 0x00, 0x00, 0xFF, 0xFF, 0, 0, 0, 0] = .ok [] ∧
    Deflate.rfc1951 [0x03, 0x00, 0, 0, 0, 0] = .ok [] ∧
    Deflate.rfc1951 [0x05, 0xC0, 0x81, 0x00, 0x00, 0x00, 0x00, 0x00, 0x90,
      0xFF, 0x6B, 0x00, 0x00, 0x00, 0x00, 0x00] = .ok [] ∧
    Deflate.rfc1951 [0x07, 0x00] = .panic := by
  refine ⟨by decide, by decide, by decide, by decide, by decide⟩

/-- C7 counterexample: on the fresh (empty-source) reader state,
`read_bits 0` panics — the source evaluates `U64_BIT_MASK >> 64 - len`,
a `u64` shift by the full 64-bit width — instead of returning `0` with
the state unchanged. -/
theorem read_bits_zero_cex :
    BitReader64.read_bits ⟨[], 0, 0⟩ 0 = .panic := by decide

/-- C7 (amended): on the newer bit reader, `read_number 0` returns `0`
and leaves every reader state unchanged, but `read_bits 0` panics on
every state (the shift `U64_BIT_MASK >> 64 - len` has shift amount 64
when `len = 0`, and a refill cannot happen because `buffer_size < 0` is
impossible). -/
theorem read_zero_bits (st : BitReader64.BitReader) :
    BitReader64.read_number st 0 = .ok (0, st) ∧
    BitReader64.read_bits st 0 = .panic := by
  constructor
  · simp [BitReader64.read_number]
  · simp [BitReader64.read_bits]

theorem revBits_trunc_lt (X : Nat) : revBits 64 (X * 2 ^ 56 % 2 ^ 64) < 256 := by
  rw [(by norm_num : (2:Nat) ^ 64 = 2 ^ 8 * 2 ^ 56), Nat.mul_mod_mul_right]
  have h1 := revBits_mul_pow 56 8 (X % 2 ^ 8)
  rw [(by norm_num : 8 + 56 = 64)] at h1
  rw [h1]
  have h2 := revBits_lt 8 (X % 2 ^ 8)
  norm_num at h2
  exact h2

theorem read_bits_eight_lt (st st' : BitReader64.BitReader) (v : Nat)
    (h : BitReader64.read_bits st 8 = .ok (v, st')) : v < 256 := by
  unfold BitReader64.read_bits at h
  rw [if_neg (by norm_num : ¬ (8:Nat) > 64)] at h
  simp only [] at h
  split_ifs at h with h1 h2 h3 h4
  case _ =>
    simp only [DRes.ok.injEq, Prod.mk.injEq] at h
    obtain ⟨hv, _⟩ := h
    rw [(by omega : 64 - (8 - st.buffer_size) - st.buffer_size = 56)] at hv
    rw [← hv]
    exact revBits_trunc_lt _
  case _ =>
    simp only [DRes.ok.injEq, Prod.mk.injEq] at h
    obtain ⟨hv, _⟩ := h
    rw [(by norm_num : (64:Nat) - 8 - 0 = 56)] at hv
    rw [← hv]
    exact revBits_trunc_lt _

/-- C8 counterexample: the fresh reader over the single byte `0x01` is
byte-aligned (`buffer_size = 0`), yet `read_bits 8` returns `0x80` (the
bit-reversal of the byte) while `read_number 8` returns `0x01` (the byte
itself) — the two reads are not equal at `n = 8` on a byte-aligned
state. -/
theorem read_code_integer_eight_cex :
    (⟨[1], 0, 0⟩ : BitReader64.BitReader).buffer_size % 8 = 0 ∧
    BitReader64.read_bits ⟨[1], 0, 0⟩ 8 = .ok (0x80, ⟨[], 0, 0⟩) ∧
    BitReader64.read_number ⟨[1], 0, 0⟩ 8 = .ok (0x01, ⟨[], 0, 0⟩) ∧
    ¬ BitReader64.read_bits ⟨[1], 0, 0⟩ 8 =
        BitReader64.read_number ⟨[1], 0, 0⟩ 8 := by
  refine ⟨rfl, by decide, by decide, by decide⟩

/-- C8 (amended): whenever `read_bits st 8` succeeds with value `v` (on
any state, byte-aligned or not), `v` is a byte and `read_number st 8`
succeeds from the same state with the bit-reversal of `v` and the same
final state; the two reads agree exactly when `v` is a bit-palindrome.
(At `n = 0` they also disagree: `read_number` returns `0` while
`read_bits` panics.) -/
theorem read_number_eight_bit_reversed (st st' : BitReader64.BitReader)
    (v : Nat) (h : BitReader64.read_bits st 8 = .ok (v, st')) :
    v < 256 ∧
    BitReader64.read_number st 8 = .ok (revBits 8 v, st') ∧
    (BitReader64.read_number st 8 = BitReader64.read_bits st 8 ↔
      revBits 8 v = v) := by
  have hv : v < 256 := read_bits_eight_lt st st' v h
  have hn : BitReader64.read_number st 8 = .ok (revBits 8 v, st') := by
    unfold BitReader64.read_number
    rw [if_neg (by norm_num : ¬ (8:Nat) > 64),
      if_neg (by norm_num : ¬ (8:Nat) = 0)]
    show BitReader64.read_number_go st 8 0 0 = _
    unfold BitReader64.read_number_go
    rw [h]
    show DRes.ok (0 + revBits 8 ((v % 256 * 2 ^ (8 - 8)) % 256) * 2 ^ 0, st') = _
    rw [Nat.mod_eq_of_lt hv]
    norm_num
    rw [Nat.mod_eq_of_lt hv]
  refine ⟨hv, hn, ?_⟩
  rw [hn, h]
  constructor
  · intro he
    simpa using he
  · intro he
    rw [he]

/-- C8 witness: on the fresh reader over `0x01`, `read_bits 8` returns
`0x80` and `read_number 8` returns its bit-reversal. -/
theorem read_number_eight_bit_reversed_witness :
    BitReader64.read_number ⟨[1], 0, 0⟩ 8 =
      .ok (revBits 8 0x80, ⟨[], 0, 0⟩) :=
  (read_number_eight_bit_reversed ⟨[1], 0, 0⟩ ⟨[], 0, 0⟩ 0x80 (by decide)).2.1

/-- C9: `Pdf::resolve` looks up `key.object` alone in the object map, so
any two keys sharing an object number resolve to the same object whatever
their generation numbers. -/
theorem resolve_ignores_generation (pdf : PdfParser.Pdf)
    (k₁ k₂ : PdfParser.Key) (h : k₁.object = k₂.object) :
    pdf.resolve k₁ = pdf.resolve k₂ := by
  unfold PdfParser.Pdf.resolve
  rw [h]

/-- C9 witness: in a document whose object 1 is the integer 42, the keys
`(1, 0)` and `(1, 5)` resolve identically (to that integer). -/
theorem resolve_ignores_generation_witness :
    PdfParser.Pdf.resolve ⟨.V1_4, [(1, .Integer 42)]⟩ ⟨1, 0⟩ =
      PdfParser.Pdf.resolve ⟨.V1_4, [(1, .Integer 42)]⟩ ⟨1, 5⟩ ∧
    PdfParser.Pdf.resolve ⟨.V1_4, [(1, .Integer 42)]⟩ ⟨1, 0⟩ =
      .Integer 42 :=
  ⟨resolve_ignores_generation ⟨.V1_4, [(1, .Integer 42)]⟩ ⟨1, 0⟩ ⟨1, 5⟩ rfl,
   rfl⟩

theorem hex_string_go_all_hexws (s : List Nat)
    (hs : ∀ b ∈ s, PdfParser.is_hex_ascii b ∨ PdfParser.is_whitespace_ascii b) :
    ∀ acc, PdfParser.hex_string_go acc s = .panic := by
  induction s with
  | nil => intro acc; rfl
  | cons b rest ih =>
    intro acc
    have hb := hs b (by simp)
    have hb62 : ¬ b = 0x3E := by
      rcases hb with hx | hw
      · intro hq
        subst hq
        simp [PdfParser.is_hex_ascii] at hx
      · intro hq
        subst hq
        simp [PdfParser.is_whitespace_ascii] at hw
    have hrest : ∀ x ∈ rest,
        PdfParser.is_hex_ascii x ∨ PdfParser.is_whitespace_ascii x :=
      fun x hx => hs x (by simp [hx])
    unfold PdfParser.hex_string_go
    rw [if_neg hb62]
    by_cases hw : PdfParser.is_whitespace_ascii b = true
    · rw [if_pos hw]
      exact ih hrest acc
    · have hx : PdfParser.is_hex_ascii b = true := by
        rcases hb with hx | hw'
        · exact hx
        · exact absurd hw' hw
      rw [if_neg hw, if_pos hx]
      exact ih hrest _

/-- C10: for every input consisting of `<` followed only by hex digits
and/or whitespace and no closing `>`, the scan loop of `hex_string`
eventually evaluates its guard on the empty remaining slice and reads
`data[0]` out of bounds — a panic, not a `NotFound` or `Error` result. -/
theorem hex_string_unterminated_panics (s : List Nat)
    (hs : ∀ b ∈ s, PdfParser.is_hex_ascii b ∨ PdfParser.is_whitespace_ascii b) :
    PdfParser.hex_string (0x3C :: s) = .panic := by
  have hgo := hex_string_go_all_hexws s hs []
  simp [PdfParser.hex_string, hgo]

/-- C10 witness: the unterminated hex string `<A 5` panics. -/
theorem hex_string_unterminated_panics_witness :
    PdfParser.hex_string [0x3C, 0x41, 0x20, 0x35] = .panic :=
  hex_string_unterminated_panics [0x41, 0x20, 0x35] (by decide)
